import Mathlib

/-!
Verification of `ax/service/utils/instantiation.py`: a shallow embedding of
the constraint mini-language parser, the parameter builder, the outcome
constraint parser, the experiment assembler and the evaluation normalizer,
together with theorems settling the specification claims.

Python machine floats are modelled as exact rationals (`ℚ`); Python `dict`s
are modelled as association lists in insertion order (keys unique); Python
exceptions (`ValueError` / `AssertionError`, both "ValidationError" in the
spec) are modelled as `Except String`.
-/

deriving instance DecidableEq for Except

/-- Helper for `pySplit`: walk the characters, accumulating the current word
(in reverse) and emitting it at each whitespace run or at the end. -/
def splitWsAux : List Char → List Char → List String
  | [], acc => if acc = [] then [] else [String.mk acc.reverse]
  | c :: cs, acc =>
    if c.isWhitespace then
      if acc = [] then splitWsAux cs []
      else String.mk acc.reverse :: splitWsAux cs []
    else splitWsAux cs (c :: acc)

/-- Python's `str.split()` with no arguments: split on runs of whitespace,
discarding empty pieces. -/
def pySplit (s : String) : List String :=
  splitWsAux s.data []

/-- Numeric value of a list of decimal digit characters, most significant first. -/
def digitsVal (cs : List Char) : ℕ :=
  cs.foldl (fun a c => 10 * a + (c.toNat - 48)) 0

/-- Helper for `parseFloat`: parse the exponent characters `rest` following
an `e`/`E` and apply the scaling to the mantissa fraction `m / d`.  Returns
`none` unless `rest` is an optional sign followed by one or more digits. -/
def applyExponent (m : ℤ) (d : ℕ) (rest : List Char) : Option ℚ :=
  let esgnrest : Bool × List Char :=
    match rest with
    | '-' :: r2 => (true, r2)
    | '+' :: r2 => (false, r2)
    | _ => (false, rest)
  let ed := esgnrest.2.takeWhile Char.isDigit
  if ed = [] ∨ esgnrest.2.dropWhile Char.isDigit ≠ [] then none
  else if esgnrest.1 then some (mkRat m (d * 10 ^ digitsVal ed))
  else some (mkRat (m * (10 : ℤ) ^ digitsVal ed) d)

/-- Model of Python's `float(s)` on decimal literals: optional sign, integer
part, optional fractional part, optional exponent; at least one digit must be
present in the integer or fractional part, and no other characters may remain.
Returns the exact rational value, or `none` when `float` would raise
`ValueError`.  (Special spellings such as `inf`/`nan` are not modelled; no
claim involves them.)  The value is assembled as a single `mkRat`. -/
def parseFloat (s : String) : Option ℚ :=
  let cs := s.data
  let sgncs : ℤ × List Char :=
    match cs with
    | '-' :: rest => (-1, rest)
    | '+' :: rest => (1, rest)
    | _ => (1, cs)
  let cs1 := sgncs.2
  let ip := cs1.takeWhile Char.isDigit
  let cs2 := cs1.dropWhile Char.isDigit
  let fpcs : List Char × List Char :=
    match cs2 with
    | '.' :: rest => (rest.takeWhile Char.isDigit, rest.dropWhile Char.isDigit)
    | _ => ([], cs2)
  let fp := fpcs.1
  let cs3 := fpcs.2
  if ip = [] ∧ fp = [] then none
  else
    let m : ℤ := sgncs.1 * ((digitsVal ip * 10 ^ fp.length + digitsVal fp : ℕ) : ℤ)
    let d : ℕ := 10 ^ fp.length
    match cs3 with
    | [] => some (mkRat m d)
    | 'e' :: rest => applyExponent m d rest
    | 'E' :: rest => applyExponent m d rest
    | _ => none

/-- `ComparisonOp` from `ax.core.types`: modelled from the spec, "comparison_op
∈ LEQ,GEQ". -/
inductive ComparisonOp where
  | GEQ
  | LEQ
deriving DecidableEq, Repr

/-- `COMPARISON_OPS` lookup table of the source, insertion order preserved. -/
def COMPARISON_OPS : List (String × ComparisonOp) :=
  [("<=", ComparisonOp.LEQ), (">=", ComparisonOp.GEQ)]

/-- The constraint output variants (spec section 3): `OrderConstraint`,
`SumConstraint` and weighted `ParameterConstraint` from
`ax.core.parameter_constraint`, modelled as records of the arguments the
source passes to their constructors.  The source stores the `Parameter`
object `parameters[name]`; since the caller's dict binds every name to the
parameter carrying that name, we record the key.  The weighted form's
`dict(zip(used_parameters, used_weights))` is modelled as the zipped
association list. -/
inductive ParameterConstraint where
  | order (lower_parameter upper_parameter : String)
  | sum (parameters : List String) (is_upper_bound : Bool) (bound : ℚ)
  | weighted (constraint_dict : List (String × ℚ)) (bound : ℚ)
deriving DecidableEq, Repr

/-- The `for idx, token in enumerate(tokens[:-2])` loop of the sum-constraint
branch of `constraint_from_str`: even positions must be known parameter names
(collected into `used_parameters`), odd positions must be the literal `+`. -/
def sumLoop (parameter_names : List String) :
    List String → ℕ → List String → Except String (List String)
  | [], _, used_parameters => .ok used_parameters
  | token :: rest, idx, used_parameters =>
    if idx % 2 = 0 then
      if token ∈ parameter_names then
        sumLoop parameter_names rest (idx + 1) (used_parameters ++ [token])
      else .error ("Parameter " ++ token ++ " not in parameter names.")
    else
      if token = "+" then sumLoop parameter_names rest (idx + 1) used_parameters
      else .error ("Expected a sum constraint, found operator " ++ token)

/-- The `for idx, token in enumerate(tokens[:-2])` loop of the weighted
("parameter constraint") branch of `constraint_from_str`: positions cycle
mod 4 as weight, `*`, parameter name, `+`. -/
def weightedLoop (parameter_names : List String) :
    List String → ℕ → List String → List ℚ →
    Except String (List String × List ℚ)
  | [], _, used_parameters, used_weights => .ok (used_parameters, used_weights)
  | token :: rest, idx, used_parameters, used_weights =>
    if idx % 4 = 0 then
      match parseFloat token with
      | some weight =>
        weightedLoop parameter_names rest (idx + 1) used_parameters
          (used_weights ++ [weight])
      | none =>
        .error ("Weight for parameter constraint must be a number; got " ++ token)
    else if idx % 4 = 1 then
      if token = "*" then
        weightedLoop parameter_names rest (idx + 1) used_parameters used_weights
      else .error ("Expected a multiplication, found operator " ++ token)
    else if idx % 4 = 2 then
      if token ∈ parameter_names then
        weightedLoop parameter_names rest (idx + 1) (used_parameters ++ [token])
          used_weights
      else .error ("Parameter " ++ token ++ " not in parameter names.")
    else
      if token = "+" then
        weightedLoop parameter_names rest (idx + 1) used_parameters used_weights
      else .error ("Expected a sum constraint, found operator " ++ token)

/-- Shape predicate `order_const` of the source: exactly three tokens with a
comparison operator in the middle. -/
def order_const (tokens : List String) : Bool :=
  tokens.length == 3 && (COMPARISON_OPS.lookup (tokens.getD 1 "")).isSome

/-- Shape predicate `sum_const` of the source: at least five tokens, odd
count, comparison operator second-to-last, no `*` token. -/
def sum_const (tokens : List String) : Bool :=
  decide (5 ≤ tokens.length) && tokens.length % 2 == 1 &&
    (COMPARISON_OPS.lookup (tokens.getD (tokens.length - 2) "")).isSome &&
    !(tokens.contains "*")

/-- Shape predicate `parameter_const` of the source: at least five tokens,
odd count, comparison operator second-to-last, a `*` token present. -/
def parameter_const (tokens : List String) : Bool :=
  decide (5 ≤ tokens.length) && tokens.length % 2 == 1 &&
    (COMPARISON_OPS.lookup (tokens.getD (tokens.length - 2) "")).isSome &&
    tokens.contains "*"

/-- Body of `constraint_from_str` after tokenization.  `parameter_names` is
the key list, in iteration order, of the `Dict[str, Parameter]` argument.
Mirrors the source: classify by the three shape predicates, reject when none
holds, then parse the matched shape (`left`/`right` of the order branch are
`tokens[0]`/`tokens[2]`).  The final `else` branch is unreachable: the guard
guarantees one of the three predicates holds, and the order branch returns,
so `sum_const` or `parameter_const` holds there. -/
def constraint_from_tokens (tokens : List String)
    (parameter_names : List String) : Except String ParameterConstraint :=
  if !(order_const tokens || sum_const tokens || parameter_const tokens) then
    .error ("Parameter constraint should be of form " ++
      "order constraint, sum constraint or parameter constraint.")
  else if order_const tokens then
    if tokens.getD 0 "" ∈ parameter_names then
      if tokens.getD 2 "" ∈ parameter_names then
        if COMPARISON_OPS.lookup (tokens.getD 1 "") = some ComparisonOp.LEQ then
          .ok (.order (tokens.getD 0 "") (tokens.getD 2 ""))
        else
          .ok (.order (tokens.getD 2 "") (tokens.getD 0 ""))
      else .error ("Parameter " ++ tokens.getD 2 "" ++ " not in parameter names.")
    else .error ("Parameter " ++ tokens.getD 0 "" ++ " not in parameter names.")
  else
    match parseFloat (tokens.getLastD "") with
    | none =>
      .error ("Bound for sum or parameter constraint must be a number; got " ++
        tokens.getLastD "")
    | some bound =>
      if sum_const tokens then
        match sumLoop parameter_names (tokens.take (tokens.length - 2)) 0 [] with
        | .error e => .error e
        | .ok used_parameters =>
          .ok (.sum
            (parameter_names.filter (fun p => decide (p ∈ used_parameters)))
            (COMPARISON_OPS.lookup (tokens.getD (tokens.length - 2) "") ==
              some ComparisonOp.LEQ)
            bound)
      else if parameter_const tokens then
        match weightedLoop parameter_names (tokens.take (tokens.length - 2))
            0 [] [] with
        | .error e => .error e
        | .ok uw => .ok (.weighted (uw.1.zip uw.2) bound)
      else .error "unreachable: the classification guard admits three shapes"

/-- `constraint_from_str`: tokenize on whitespace, then classify and parse.
`parameter_names` stands for the keys, in iteration order, of the
`parameters: Dict[str, Parameter]` argument of the source. -/
def constraint_from_str (representation : String)
    (parameter_names : List String) : Except String ParameterConstraint :=
  constraint_from_tokens (pySplit representation) parameter_names

example : pySplit "x1 >= x2" = ["x1", ">=", "x2"] := by decide
example : parseFloat "10" = some 10 := by decide
example : parseFloat "0.5" = some (mkRat 1 2) := by decide
example : parseFloat "-1.0" = some (-1) := by decide
example : parseFloat "2e3" = some 2000 := by decide
example : parseFloat "x1" = none := by decide
example : parseFloat "" = none := by decide
example : constraint_from_str "x1 >= x2" ["x1", "x2"] =
    .ok (.order "x2" "x1") := by decide
example : constraint_from_str "x1 + x2 <= 10" ["x1", "x2"] =
    .ok (.sum ["x1", "x2"] true 10) := by decide
example : constraint_from_str "0.5 * x1 + -1.0 * x2 <= 3" ["x1", "x2"] =
    .ok (.weighted [("x1", mkRat 1 2), ("x2", -1)] 3) := by decide
example : constraint_from_str "x1 * x2 <= 5" ["x1", "x2"] =
    .error "Weight for parameter constraint must be a number; got x1" := by decide

/-- The tokens sitting at even positions of a list, when position counting
starts at `idx`: these are exactly the tokens the sum-constraint loop checks
against `parameter_names` and collects into `used_parameters`. -/
def evenPositions : List String → ℕ → List String
  | [], _ => []
  | t :: rest, idx =>
    if idx % 2 = 0 then t :: evenPositions rest (idx + 1)
    else evenPositions rest (idx + 1)

theorem sumLoop_ok (parameter_names : List String) :
    ∀ (body : List String) (idx : ℕ) (used u : List String),
      sumLoop parameter_names body idx used = .ok u →
      u = used ++ evenPositions body idx ∧
        ∀ t ∈ evenPositions body idx, t ∈ parameter_names := by
  intro body
  induction body with
  | nil =>
    intro idx used u h
    simp only [sumLoop] at h
    injection h with h
    simp [evenPositions, h]
  | cons t rest ih =>
    intro idx used u h
    simp only [sumLoop] at h
    by_cases he : idx % 2 = 0
    · rw [if_pos he] at h
      by_cases hm : t ∈ parameter_names
      · rw [if_pos hm] at h
        obtain ⟨h1, h2⟩ := ih (idx + 1) (used ++ [t]) u h
        refine ⟨?_, ?_⟩
        · simp [evenPositions, if_pos he, h1]
        · intro s hs
          simp only [evenPositions, if_pos he, List.mem_cons] at hs
          rcases hs with hs | hs
          · exact hs ▸ hm
          · exact h2 s hs
      · rw [if_neg hm] at h
        exact absurd h (by simp)
    · rw [if_neg he] at h
      by_cases hp : t = "+"
      · rw [if_pos hp] at h
        obtain ⟨h1, h2⟩ := ih (idx + 1) used u h
        exact ⟨by simp [evenPositions, if_neg he, h1], by
          intro s hs
          simp only [evenPositions, if_neg he] at hs
          exact h2 s hs⟩
      · rw [if_neg hp] at h
        exact absurd h (by simp)

theorem constraint_from_tokens_sum_inv (tokens parameter_names out : List String)
    (ub : Bool) (b : ℚ)
    (h : constraint_from_tokens tokens parameter_names = .ok (.sum out ub b)) :
    ∃ used,
      sumLoop parameter_names (tokens.take (tokens.length - 2)) 0 [] = .ok used ∧
      out = parameter_names.filter (fun p => decide (p ∈ used)) := by
  unfold constraint_from_tokens at h
  split at h
  · exact absurd h (by simp)
  · split at h
    · split at h
      · split at h
        · split at h <;> exact absurd h (by simp)
        · exact absurd h (by simp)
      · exact absurd h (by simp)
    · split at h
      · exact absurd h (by simp)
      · split at h
        · split at h
          · exact absurd h (by simp)
          · rename_i used hloop
            injection h with h
            injection h with h1 h2 h3
            exact ⟨used, hloop, h1.symm⟩
        · split at h
          · split at h <;> exact absurd h (by simp)
          · exact absurd h (by simp)

/-- C1: for every constraint string of the order form `a <= b` or `a >= b`
with `a` and `b` in the known parameter set, `constraint_from_str` returns an
order constraint normalized to read lower ≤ upper: `a <= b` yields
lower = `a`, upper = `b`, while `a >= b` yields lower = `b`, upper = `a`. -/
theorem C1_order_constraint_normalized (r : String)
    (parameter_names : List String) (a op b : String)
    (htok : pySplit r = [a, op, b])
    (ha : a ∈ parameter_names) (hb : b ∈ parameter_names) :
    (op = "<=" → constraint_from_str r parameter_names =
      .ok (.order a b)) ∧
    (op = ">=" → constraint_from_str r parameter_names =
      .ok (.order b a)) := by
  unfold constraint_from_str
  rw [htok]
  constructor <;> rintro rfl <;>
    simp [constraint_from_tokens, order_const, sum_const, parameter_const,
      COMPARISON_OPS, List.lookup, ha, hb]

theorem C1_order_constraint_normalized_witness :
    constraint_from_str "x1 <= x2" ["x1", "x2"] = .ok (.order "x1" "x2") ∧
    constraint_from_str "x1 >= x2" ["x1", "x2"] = .ok (.order "x2" "x1") :=
  ⟨(C1_order_constraint_normalized "x1 <= x2" ["x1", "x2"] "x1" "<=" "x2"
      (by decide) (by decide) (by decide)).1 rfl,
   (C1_order_constraint_normalized "x1 >= x2" ["x1", "x2"] "x1" ">=" "x2"
      (by decide) (by decide) (by decide)).2 rfl⟩

/-- C3: the parameter list of a returned sum constraint is
`known_parameters` (in its iteration order) filtered to the names standing at
even positions of the token stream before the operator, hence a sublist of
`known_parameters` rather than following the order of appearance in the
string; and `x1 + x2 <= 10` over `x1, x2` yields
`Sum(params = [x1, x2], is_upper_bound = true, bound = 10.0)`. -/
theorem C3_sum_params_follow_known_parameters_order :
    (∀ (r : String) (parameter_names out : List String) (ub : Bool) (b : ℚ),
      constraint_from_str r parameter_names = .ok (.sum out ub b) →
      out.Sublist parameter_names ∧
      (∀ n, n ∈ out ↔ n ∈ parameter_names ∧
        n ∈ evenPositions ((pySplit r).take ((pySplit r).length - 2)) 0)) ∧
    constraint_from_str "x1 + x2 <= 10" ["x1", "x2"] =
      .ok (.sum ["x1", "x2"] true 10) := by
  constructor
  · intro r parameter_names out ub b h
    obtain ⟨used, hloop, hout⟩ :=
      constraint_from_tokens_sum_inv (pySplit r) parameter_names out ub b h
    obtain ⟨hu, _⟩ := sumLoop_ok parameter_names
      ((pySplit r).take ((pySplit r).length - 2)) 0 [] used hloop
    simp only [List.nil_append] at hu
    subst hu hout
    refine ⟨List.filter_sublist _, ?_⟩
    intro n
    simp [List.mem_filter]
  · decide

theorem C3_sum_params_follow_known_parameters_order_witness :
    constraint_from_str "x2 + x1 <= 10" ["x1", "x2"] =
      .ok (.sum ["x1", "x2"] true 10) ∧
    (["x1", "x2"] : List String).Sublist ["x1", "x2"] := by
  have h : constraint_from_str "x2 + x1 <= 10" ["x1", "x2"] =
      .ok (.sum ["x1", "x2"] true 10) := by decide
  exact ⟨h, (C3_sum_params_follow_known_parameters_order.1
    "x2 + x1 <= 10" ["x1", "x2"] ["x1", "x2"] true 10 h).1⟩

/-- C5 counterexample: the spec's stated reason is wrong on the code.
`"x1 * x2 <= 5"` splits into five tokens, not four, and the five tokens
match the weighted-sum ("parameter constraint") shape, as witnessed by the
failure arising inside the weighted parsing loop (its weight error message),
not from the shape-classification guard. -/
theorem C5_counterexample :
    (pySplit "x1 * x2 <= 5").length = 5 ∧
    constraint_from_str "x1 * x2 <= 5" ["x1", "x2"] =
      .error "Weight for parameter constraint must be a number; got x1" := by
  constructor <;> decide

/-- C5 amended: `parse_constraint("x1 * x2 <= 5", x1 x2)` does fail with
`ValidationError`, but because the five whitespace tokens match the
weighted-sum shape (odd count ≥ 5, comparison operator second-to-last, `*`
present) and the first token `x1` then fails to parse as a numeric weight. -/
theorem C5_weighted_shape_fails_on_nonnumeric_weight :
    constraint_from_str "x1 * x2 <= 5" ["x1", "x2"] =
      .error "Weight for parameter constraint must be a number; got x1" := by
  decide

/-- Well-formed weighted-sum constraint bodies: the tokens standing before
the comparison operator, in groups `weight * name` joined by `+`, paired
with the association list of (name, weight) entries they denote. -/
inductive WeightedBody (parameter_names : List String) :
    List String → List (String × ℚ) → Prop
  | last (wstr n : String) (w : ℚ) (hw : parseFloat wstr = some w)
      (hn : n ∈ parameter_names) :
      WeightedBody parameter_names [wstr, "*", n] [(n, w)]
  | cons (wstr n : String) (w : ℚ) (rest : List String)
      (d : List (String × ℚ)) (hw : parseFloat wstr = some w)
      (hn : n ∈ parameter_names) (h : WeightedBody parameter_names rest d) :
      WeightedBody parameter_names (wstr :: "*" :: n :: "+" :: rest)
        ((n, w) :: d)

theorem WeightedBody.length_mod_four {parameter_names body d}
    (h : WeightedBody parameter_names body d) : body.length % 4 = 3 := by
  induction h with
  | last wstr n w hw hn => rfl
  | cons wstr n w rest d hw hn h ih => simp only [List.length_cons]; omega

theorem WeightedBody.star_mem {parameter_names body d}
    (h : WeightedBody parameter_names body d) : "*" ∈ body := by
  induction h with
  | last wstr n w hw hn => simp
  | cons wstr n w rest d hw hn h ih => simp

theorem zip_map_fst_map_snd {α β : Type} (l : List (α × β)) :
    (l.map Prod.fst).zip (l.map Prod.snd) = l := by
  induction l with
  | nil => rfl
  | cons a t ih => simp [ih]

/-- Evaluation of the three shape predicates on a token stream of the form
`body ++ [op, bound]` where `body` is at least 3 tokens, of odd length, and
contains a `*`: only the weighted ("parameter constraint") shape matches. -/
theorem parameter_const_append (body : List String) (op bstr : String)
    (hlen : 3 ≤ body.length) (hodd : body.length % 2 = 1)
    (hstar : "*" ∈ body) (hop : (COMPARISON_OPS.lookup op).isSome = true) :
    order_const (body ++ [op, bstr]) = false ∧
    sum_const (body ++ [op, bstr]) = false ∧
    parameter_const (body ++ [op, bstr]) = true := by
  have hlen2 : (body ++ [op, bstr]).length = body.length + 2 := by simp
  have hget : (body ++ [op, bstr]).getD ((body ++ [op, bstr]).length - 2) "" =
      op := by
    rw [hlen2]
    have h1 : body.length + 2 - 2 = body.length := by omega
    rw [h1, List.getD_append_right body [op, bstr] "" body.length (le_refl _)]
    simp
  have hcont : (body ++ [op, bstr]).contains "*" = true :=
    List.elem_eq_true_of_mem (List.mem_append_left _ hstar)
  have hbeq : ((body ++ [op, bstr]).length == 3) = false := by
    rw [beq_eq_false_iff_ne, hlen2]
    omega
  have h5 : decide (5 ≤ (body ++ [op, bstr]).length) = true := by
    rw [decide_eq_true_eq, hlen2]
    omega
  have hmod : ((body ++ [op, bstr]).length % 2 == 1) = true := by
    rw [beq_iff_eq, hlen2]
    omega
  refine ⟨?_, ?_, ?_⟩
  · simp only [order_const, hbeq, Bool.false_and]
  · unfold sum_const
    rw [hget, hop, hcont]
    simp
  · unfold parameter_const
    rw [hget, hop, hcont, h5, hmod]
    rfl

theorem weightedLoop_of_weightedBody {parameter_names body d}
    (h : WeightedBody parameter_names body d) :
    ∀ (idx : ℕ) (ns : List String) (ws : List ℚ), idx % 4 = 0 →
      weightedLoop parameter_names body idx ns ws =
        .ok (ns ++ d.map Prod.fst, ws ++ d.map Prod.snd) := by
  induction h with
  | last wstr n w hw hn =>
    intro idx ns ws hidx
    have h1 : ¬(idx + 1) % 4 = 0 := by omega
    have h1p : (idx + 1) % 4 = 1 := by omega
    have h2 : ¬(idx + 1 + 1) % 4 = 0 := by omega
    have h2a : ¬(idx + 1 + 1) % 4 = 1 := by omega
    have h2p : (idx + 1 + 1) % 4 = 2 := by omega
    simp only [weightedLoop, if_pos hidx, hw, if_neg h1, if_pos h1p,
      if_neg h2, if_neg h2a, if_pos h2p, if_pos hn]
    simp
  | cons wstr n w rest d hw hn h ih =>
    intro idx ns ws hidx
    have h1 : ¬(idx + 1) % 4 = 0 := by omega
    have h1p : (idx + 1) % 4 = 1 := by omega
    have h2 : ¬(idx + 1 + 1) % 4 = 0 := by omega
    have h2a : ¬(idx + 1 + 1) % 4 = 1 := by omega
    have h2p : (idx + 1 + 1) % 4 = 2 := by omega
    have h3a : ¬(idx + 1 + 1 + 1) % 4 = 0 := by omega
    have h3b : ¬(idx + 1 + 1 + 1) % 4 = 1 := by omega
    have h3c : ¬(idx + 1 + 1 + 1) % 4 = 2 := by omega
    simp only [weightedLoop, if_pos hidx, hw, if_neg h1, if_pos h1p,
      if_neg h2, if_neg h2a, if_pos h2p, if_pos hn, if_neg h3a, if_neg h3b,
      if_neg h3c, if_true]
    rw [ih (idx + 1 + 1 + 1 + 1) (ns ++ [n]) (ws ++ [w]) (by omega)]
    simp

/-- The pointwise grammar condition the weighted parsing loop enforces on
the token at (0-based) position `j` of the body. -/
def weightedTokenOk (parameter_names : List String) (body : List String)
    (j : ℕ) : Prop :=
  (j % 4 = 0 → (parseFloat (body.getD j "")).isSome = true) ∧
  (j % 4 = 1 → body.getD j "" = "*") ∧
  (j % 4 = 2 → body.getD j "" ∈ parameter_names) ∧
  (j % 4 = 3 → body.getD j "" = "+")

theorem weightedLoop_ok_grammar (parameter_names : List String) :
    ∀ (body : List String) (idx : ℕ) (ns : List String) (ws : List ℚ)
      (r : List String × List ℚ),
      weightedLoop parameter_names body idx ns ws = .ok r →
      ∀ j, j < body.length →
        ((idx + j) % 4 = 0 → (parseFloat (body.getD j "")).isSome = true) ∧
        ((idx + j) % 4 = 1 → body.getD j "" = "*") ∧
        ((idx + j) % 4 = 2 → body.getD j "" ∈ parameter_names) ∧
        ((idx + j) % 4 = 3 → body.getD j "" = "+") := by
  intro body
  induction body with
  | nil =>
    intro idx ns ws r h j hj
    simp at hj
  | cons t rest ih =>
    intro idx ns ws r h j hj
    simp only [weightedLoop] at h
    by_cases h0 : idx % 4 = 0
    · rw [if_pos h0] at h
      cases hw : parseFloat t with
      | none => rw [hw] at h; exact absurd h (by simp)
      | some w =>
        rw [hw] at h
        cases j with
        | zero =>
          exact ⟨fun _ => by simp [hw], fun hc => absurd hc (by omega),
            fun hc => absurd hc (by omega), fun hc => absurd hc (by omega)⟩
        | succ j =>
          have hstep := ih (idx + 1) ns (ws ++ [w]) r h j
            (by simpa using hj)
          have hsh : idx + (j + 1) = idx + 1 + j := by omega
          rw [hsh]
          simpa using hstep
    · rw [if_neg h0] at h
      by_cases h1 : idx % 4 = 1
      · rw [if_pos h1] at h
        by_cases ht : t = "*"
        · rw [if_pos ht] at h
          cases j with
          | zero =>
            exact ⟨fun hc => absurd hc (by omega), fun _ => by simp [ht],
              fun hc => absurd hc (by omega), fun hc => absurd hc (by omega)⟩
          | succ j =>
            have hstep := ih (idx + 1) ns ws r h j (by simpa using hj)
            have hsh : idx + (j + 1) = idx + 1 + j := by omega
            rw [hsh]
            simpa using hstep
        · rw [if_neg ht] at h
          exact absurd h (by simp)
      · rw [if_neg h1] at h
        by_cases h2 : idx % 4 = 2
        · rw [if_pos h2] at h
          by_cases ht : t ∈ parameter_names
          · rw [if_pos ht] at h
            cases j with
            | zero =>
              exact ⟨fun hc => absurd hc (by omega),
                fun hc => absurd hc (by omega), fun _ => by simpa using ht,
                fun hc => absurd hc (by omega)⟩
            | succ j =>
              have hstep := ih (idx + 1) (ns ++ [t]) ws r h j
                (by simpa using hj)
              have hsh : idx + (j + 1) = idx + 1 + j := by omega
              rw [hsh]
              simpa using hstep
          · rw [if_neg ht] at h
            exact absurd h (by simp)
        · rw [if_neg h2] at h
          by_cases ht : t = "+"
          · rw [if_pos ht] at h
            cases j with
            | zero =>
              exact ⟨fun hc => absurd hc (by omega),
                fun hc => absurd hc (by omega),
                fun hc => absurd hc (by omega), fun _ => by simp [ht]⟩
            | succ j =>
              have hstep := ih (idx + 1) ns ws r h j (by simpa using hj)
              have hsh : idx + (j + 1) = idx + 1 + j := by omega
              rw [hsh]
              simpa using hstep
          · rw [if_neg ht] at h
            exact absurd h (by simp)

theorem constraint_from_tokens_weighted_inv (tokens parameter_names : List String)
    (d : List (String × ℚ)) (b : ℚ)
    (h : constraint_from_tokens tokens parameter_names = .ok (.weighted d b)) :
    parseFloat (tokens.getLastD "") = some b ∧
    ∃ uw, weightedLoop parameter_names (tokens.take (tokens.length - 2))
        0 [] [] = .ok uw ∧ d = uw.1.zip uw.2 := by
  unfold constraint_from_tokens at h
  split at h
  · exact absurd h (by simp)
  · split at h
    · split at h
      · split at h
        · split at h <;> exact absurd h (by simp)
        · exact absurd h (by simp)
      · exact absurd h (by simp)
    · split at h
      · exact absurd h (by simp)
      · rename_i bound hbound
        split at h
        · split at h
          · exact absurd h (by simp)
          · exact absurd h (by simp)
        · split at h
          · split at h
            · exact absurd h (by simp)
            · rename_i uw hloop
              injection h with h
              injection h with h1 h2
              exact ⟨h2 ▸ hbound, uw, hloop, h1.symm⟩
          · exact absurd h (by simp)

/-- On a token stream `body ++ [op, bound]` matching the weighted shape, the
parser takes the weighted branch, so the result is fully described by the
bound parse and the weighted loop on `body`. -/
theorem constraint_from_tokens_weighted_ok (parameter_names body : List String)
    (d : List (String × ℚ)) (op bstr : String) (b : ℚ)
    (hbody : WeightedBody parameter_names body d)
    (hop : (COMPARISON_OPS.lookup op).isSome = true)
    (hb : parseFloat bstr = some b) :
    constraint_from_tokens (body ++ [op, bstr]) parameter_names =
      .ok (.weighted d b) := by
  have hm4 := hbody.length_mod_four
  obtain ⟨ho, hs, hp⟩ := parameter_const_append body op bstr (by omega)
    (by omega) hbody.star_mem hop
  have hlast : (body ++ [op, bstr]).getLastD "" = bstr := by simp
  have htake : (body ++ [op, bstr]).take ((body ++ [op, bstr]).length - 2) =
      body := by
    have h1 : (body ++ [op, bstr]).length - 2 = body.length := by simp
    rw [h1, List.take_left]
  unfold constraint_from_tokens
  rw [ho, hs, hp]
  simp only [Bool.or_false, Bool.or_true, Bool.false_or, Bool.not_true,
    Bool.false_eq_true, if_false, eq_self_iff_true, if_true, hlast, hb, htake]
  rw [weightedLoop_of_weightedBody hbody 0 [] [] (by omega)]
  simp [zip_map_fst_map_snd]

/-- C4: a well-formed weighted-sum constraint string - tokens before the
operator cycling in groups of four as numeric weight, `*`, known parameter
name, `+` (omitted after the final group) - parses to a weighted constraint
pairing each named parameter with its weight, with the trailing token as the
float bound (first conjunct); conversely a returned weighted constraint
certifies the grammar held at every body position and the bound parsed from
the last token (second conjunct); a weighted-shaped token stream violating
the grammar at any body position fails with an error (third conjunct); and
`0.5 * x1 + -1.0 * x2 <= 3` over `x1, x2` yields the weighted constraint
`x1 -> 0.5, x2 -> -1.0` with bound 3.0 (last conjunct). -/
theorem C4_weighted_sum_parsing :
    (∀ (r : String) (parameter_names body : List String)
       (d : List (String × ℚ)) (op bstr : String) (b : ℚ),
       pySplit r = body ++ [op, bstr] →
       WeightedBody parameter_names body d →
       (COMPARISON_OPS.lookup op).isSome = true →
       parseFloat bstr = some b →
       constraint_from_str r parameter_names = .ok (.weighted d b)) ∧
    (∀ (r : String) (parameter_names : List String)
       (d : List (String × ℚ)) (b : ℚ),
       constraint_from_str r parameter_names = .ok (.weighted d b) →
       parseFloat ((pySplit r).getLastD "") = some b ∧
       ∀ j, j < ((pySplit r).take ((pySplit r).length - 2)).length →
         weightedTokenOk parameter_names
           ((pySplit r).take ((pySplit r).length - 2)) j) ∧
    (∀ (r : String) (parameter_names body : List String) (op bstr : String),
       pySplit r = body ++ [op, bstr] →
       3 ≤ body.length → body.length % 2 = 1 → "*" ∈ body →
       (COMPARISON_OPS.lookup op).isSome = true →
       (∃ j, j < body.length ∧ ¬weightedTokenOk parameter_names body j) →
       ∃ msg, constraint_from_str r parameter_names = .error msg) ∧
    constraint_from_str "0.5 * x1 + -1.0 * x2 <= 3" ["x1", "x2"] =
      .ok (.weighted [("x1", mkRat 1 2), ("x2", -1)] 3) := by
  refine ⟨?_, ?_, ?_, by decide⟩
  · intro r parameter_names body d op bstr b htok hbody hop hb
    unfold constraint_from_str
    rw [htok]
    exact constraint_from_tokens_weighted_ok parameter_names body d op bstr b
      hbody hop hb
  · intro r parameter_names d b h
    unfold constraint_from_str at h
    obtain ⟨hbound, uw, hloop, hd⟩ :=
      constraint_from_tokens_weighted_inv (pySplit r) parameter_names d b h
    refine ⟨hbound, ?_⟩
    intro j hj
    have := weightedLoop_ok_grammar parameter_names
      ((pySplit r).take ((pySplit r).length - 2)) 0 [] [] uw hloop j hj
    simpa [weightedTokenOk] using this
  · intro r parameter_names body op bstr htok hlen hodd hstar hop hviol
    obtain ⟨ho, hs, hp⟩ := parameter_const_append body op bstr hlen hodd
      hstar hop
    have htake : (body ++ [op, bstr]).take ((body ++ [op, bstr]).length - 2) =
        body := by
      have h1 : (body ++ [op, bstr]).length - 2 = body.length := by simp
      rw [h1, List.take_left]
    unfold constraint_from_str
    rw [htok]
    unfold constraint_from_tokens
    rw [ho, hs, hp]
    simp only [Bool.or_false, Bool.or_true, Bool.false_or, Bool.not_true,
      Bool.false_eq_true, if_false, eq_self_iff_true, if_true]
    cases hbound : parseFloat ((body ++ [op, bstr]).getLastD "") with
    | none => exact ⟨_, rfl⟩
    | some bound =>
      rw [htake]
      cases hloop : weightedLoop parameter_names body 0 [] [] with
      | error e => exact ⟨e, rfl⟩
      | ok uw =>
        obtain ⟨j, hj, hnot⟩ := hviol
        exact absurd (by
          have := weightedLoop_ok_grammar parameter_names body 0 [] [] uw
            hloop j hj
          simpa [weightedTokenOk] using this) hnot

theorem C4_weighted_sum_parsing_witness :
    constraint_from_str "1.5 * x1 + 2 * x2 <= 7" ["x1", "x2"] =
      .ok (.weighted [("x1", mkRat 3 2), ("x2", 2)] 7) :=
  C4_weighted_sum_parsing.1 "1.5 * x1 + 2 * x2 <= 7" ["x1", "x2"]
    ["1.5", "*", "x1", "+", "2", "*", "x2"]
    [("x1", mkRat 3 2), ("x2", 2)] "<=" "7" 7 (by decide)
    (WeightedBody.cons "1.5" "x1" (mkRat 3 2) _ _ (by decide) (by decide)
      (WeightedBody.last "2" "x2" 2 (by decide) (by decide)))
    (by decide) (by decide)

/-- C10: for weighted-shaped token streams (a body of at least 3 tokens, of
odd length, containing `*`, followed by the comparison operator and a bound
token) the parser never inspects the operator's direction: replacing the
final `<=` operator token by `>=` yields the identical result, so a
well-formed weighted-sum string parses to a structurally equal weighted
constraint under either operator. -/
theorem C10_weighted_ignores_operator_direction
    (parameter_names body : List String) (bstr : String)
    (hlen : 3 ≤ body.length) (hodd : body.length % 2 = 1)
    (hstar : "*" ∈ body) :
    constraint_from_tokens (body ++ ["<=", bstr]) parameter_names =
      constraint_from_tokens (body ++ [">=", bstr]) parameter_names := by
  obtain ⟨ho1, hs1, hp1⟩ := parameter_const_append body "<=" bstr hlen hodd
    hstar (by decide)
  obtain ⟨ho2, hs2, hp2⟩ := parameter_const_append body ">=" bstr hlen hodd
    hstar (by decide)
  have hlast1 : (body ++ ["<=", bstr]).getLastD "" = bstr := by simp
  have hlast2 : (body ++ [">=", bstr]).getLastD "" = bstr := by simp
  have htake1 : (body ++ ["<=", bstr]).take
      ((body ++ ["<=", bstr]).length - 2) = body := by
    have h1 : (body ++ ["<=", bstr]).length - 2 = body.length := by simp
    rw [h1, List.take_left]
  have htake2 : (body ++ [">=", bstr]).take
      ((body ++ [">=", bstr]).length - 2) = body := by
    have h1 : (body ++ [">=", bstr]).length - 2 = body.length := by simp
    rw [h1, List.take_left]
  unfold constraint_from_tokens
  rw [ho1, hs1, hp1, ho2, hs2, hp2, hlast1, hlast2, htake1, htake2]
  simp only [Bool.or_false, Bool.or_true, Bool.false_or, Bool.not_true,
    Bool.false_eq_true, if_false, eq_self_iff_true, if_true]

theorem C10_weighted_ignores_operator_direction_witness :
    constraint_from_tokens
        (["0.5", "*", "x1", "+", "-1.0", "*", "x2"] ++ ["<=", "3"])
        ["x1", "x2"] =
      constraint_from_tokens
        (["0.5", "*", "x1", "+", "-1.0", "*", "x2"] ++ [">=", "3"])
        ["x1", "x2"] ∧
    constraint_from_tokens
        (["0.5", "*", "x1", "+", "-1.0", "*", "x2"] ++ [">=", "3"])
        ["x1", "x2"] =
      .ok (.weighted [("x1", mkRat 1 2), ("x2", -1)] 3) :=
  ⟨C10_weighted_ignores_operator_direction ["x1", "x2"]
      ["0.5", "*", "x1", "+", "-1.0", "*", "x2"] "3" (by decide) (by decide)
      (by decide),
   by decide⟩

/-- Python runtime types relevant to parameter values: the four scalar types
of `PARAM_TYPES` plus `NoneType` (a `TParamValue` is `Optional`). -/
inductive PyType where
  | int
  | float
  | bool
  | str
  | noneType
deriving DecidableEq, Repr

/-- A Python scalar parameter value (`TParamValue`). -/
inductive PyVal where
  | int (n : ℤ)
  | float (q : ℚ)
  | bool (b : Bool)
  | str (s : String)
  | pynone
deriving DecidableEq, Repr

/-- Python `type(v)`. -/
def PyVal.type : PyVal → PyType
  | .int _ => .int
  | .float _ => .float
  | .bool _ => .bool
  | .str _ => .str
  | .pynone => .noneType

/-- Python `isinstance(v, t)` on these types.  `bool` is a subclass of `int`
in Python, so a `bool` value is an instance of `int`; there is no other
subtype relation among the modelled types (in particular none between `int`
and `float`). -/
def isinstance (v : PyVal) (t : PyType) : Bool :=
  v.type == t || (v.type == .bool && t == .int)

/-- The internal parameter-type enum (`ParameterType` of `ax.core.parameter`). -/
inductive ParameterType where
  | BOOL
  | INT
  | FLOAT
  | STRING
deriving DecidableEq, Repr

/-- Modelled from the spec: `PARAMETER_PYTHON_TYPE_MAP` of `ax.core.parameter`
(not under `src/`), "a parameter-type enum with a fixed bijection to host
scalar types". -/
def PARAMETER_PYTHON_TYPE_MAP : List (ParameterType × PyType) :=
  [(.BOOL, .bool), (.INT, .int), (.FLOAT, .float), (.STRING, .str)]

/-- `PARAM_TYPES` lookup table of the source, insertion order preserved. -/
def PARAM_TYPES : List (String × PyType) :=
  [("int", .int), ("float", .float), ("bool", .bool), ("str", .str)]

/-- `PARAM_CLASSES` of the source. -/
def PARAM_CLASSES : List String := ["range", "choice", "fixed"]

/-- A value of a parameter JSON representation: either a scalar or a list of
scalars. -/
inductive ReprVal where
  | scalar (v : PyVal)
  | list (vs : List PyVal)
deriving DecidableEq, Repr

def ReprVal.isList : ReprVal → Bool
  | .scalar _ => false
  | .list _ => true

/-- `TParameterRepresentation`: the parameter JSON dict, modelled as an
association list in insertion order with unique keys. -/
def TParameterRepresentation : Type := List (String × ReprVal)

/-- The `Parameter` output variants (`RangeParameter`, `ChoiceParameter`,
`FixedParameter` of `ax.core.parameter`), modelled as records of the
arguments the source passes to their constructors.  `log_scale`,
`is_fidelity` and `is_ordered` are recorded as the raw dict values the source
forwards (`representation.get(..., False)`). -/
inductive Parameter where
  | range (name : String) (parameter_type : ParameterType) (lower upper : PyVal)
      (log_scale is_fidelity : ReprVal)
  | choice (name : String) (parameter_type : ParameterType)
      (values : List PyVal) (is_ordered : ReprVal)
  | fixed (name : String) (parameter_type : ParameterType) (value : PyVal)
deriving DecidableEq, Repr

def Parameter.name : Parameter → String
  | .range n _ _ _ _ _ => n
  | .choice n _ _ _ => n
  | .fixed n _ _ => n

/-- `_get_parameter_type`: scan `PARAMETER_PYTHON_TYPE_MAP` for the entry
whose Python type is (identical to) the given one. -/
def _get_parameter_type (python_type : PyType) : Except String ParameterType :=
  match PARAMETER_PYTHON_TYPE_MAP.find? (fun p => p.2 == python_type) with
  | some p => .ok p.1
  | none => .error "No AE parameter type corresponding to the given type."

/-- `_to_parameter_type`: with an explicit `value_type`, translate it through
`PARAM_TYPES`; otherwise infer from the first value's runtime type and check
every value with `isinstance` against that type. -/
def _to_parameter_type (vals : List PyVal) (typ : Option String)
    (param_name field_name : String) : Except String ParameterType :=
  match typ with
  | none =>
    match vals with
    | [] => .error "IndexError: list index out of range"
    | v0 :: _ =>
      if v0 = .pynone then .error "not_none: unexpected None value"
      else
        match _get_parameter_type v0.type with
        | .error e => .error e
        | .ok parameter_type =>
          if vals.all (fun x => isinstance x v0.type) then .ok parameter_type
          else
            .error ("Values in " ++ field_name ++ " not of the same type " ++
              "and no value_type was explicitly specified; cannot infer " ++
              "value type for parameter " ++ param_name)
  | some t =>
    match PARAM_TYPES.lookup t with
    | some pt => _get_parameter_type pt
    | none => .error "KeyError: value_type not in PARAM_TYPES"

/-- `_make_range_param`: requires a `bounds` list of exactly two values. -/
def _make_range_param (name : String)
    (representation : TParameterRepresentation)
    (parameter_type : Option String) : Except String Parameter :=
  match representation.lookup "bounds" with
  | none => .error "Bounds are required for range parameters."
  | some (.scalar _) =>
    .error ("Cannot parse parameter " ++ name ++ ": for range parameters, " ++
      "json representation should include a list of two values.")
  | some (.list bounds) =>
    if bounds.length = 2 then
      match _to_parameter_type bounds parameter_type name "bounds" with
      | .error e => .error e
      | .ok pt =>
        .ok (.range name pt (bounds.getD 0 .pynone) (bounds.getD 1 .pynone)
          ((representation.lookup "log_scale").getD (.scalar (.bool false)))
          ((representation.lookup "is_fidelity").getD (.scalar (.bool false))))
    else
      .error ("Cannot parse parameter " ++ name ++ ": for range " ++
        "parameters, json representation should include a list of two values.")

/-- `_make_choice_param`: requires a `values` list of more than one value. -/
def _make_choice_param (name : String)
    (representation : TParameterRepresentation)
    (parameter_type : Option String) : Except String Parameter :=
  match representation.lookup "values" with
  | none => .error "Values are required for choice parameters."
  | some (.scalar _) =>
    .error ("Cannot parse parameter " ++ name ++ ": for choice parameters, " ++
      "json representation should include a list of values.")
  | some (.list values) =>
    if 1 < values.length then
      match _to_parameter_type values parameter_type name "values" with
      | .error e => .error e
      | .ok pt =>
        .ok (.choice name pt values
          ((representation.lookup "is_ordered").getD (.scalar (.bool false))))
    else
      .error ("Cannot parse parameter " ++ name ++ ": for choice " ++
        "parameters, json representation should include a list of values.")

/-- `_make_fixed_param`: requires a scalar `value` whose exact runtime type
is one of `PARAM_TYPES.values()`. -/
def _make_fixed_param (name : String)
    (representation : TParameterRepresentation)
    (parameter_type : Option String) : Except String Parameter :=
  match representation.lookup "value" with
  | none => .error "Value is required for fixed parameters."
  | some (.list _) =>
    .error ("Cannot parse fixed parameter " ++ name ++ ": for fixed " ++
      "parameters, json representation should include a single value.")
  | some (.scalar value) =>
    if (PARAM_TYPES.map Prod.snd).contains value.type then
      match parameter_type with
      | none =>
        match _get_parameter_type value.type with
        | .error e => .error e
        | .ok pt => .ok (.fixed name pt value)
      | some t =>
        match PARAM_TYPES.lookup t with
        | none => .error "KeyError: value_type not in PARAM_TYPES"
        | some pyt =>
          match _get_parameter_type pyt with
          | .error e => .error e
          | .ok pt => .ok (.fixed name pt value)
    else
      .error ("Cannot parse fixed parameter " ++ name ++ ": for fixed " ++
        "parameters, json representation should include a single value.")

/-- The dispatch on `parameter_class` at the end of `parameter_from_json`,
including the fixed-parameter guard that no dict value is a list. -/
def dispatch_parameter_class (parameter_class name : String)
    (representation : TParameterRepresentation)
    (parameter_type : Option String) : Except String Parameter :=
  if parameter_class = "range" then
    _make_range_param name representation parameter_type
  else if parameter_class = "choice" then
    _make_choice_param name representation parameter_type
  else if parameter_class = "fixed" then
    if representation.any (fun kv => kv.2.isList) then
      .error "assertion failed: fixed parameters carry no list-valued fields"
    else _make_fixed_param name representation parameter_type
  else .error ("Unrecognized parameter type " ++ parameter_class)

/-- `parameter_from_json` (the spec's `build_parameter`): validate `name`,
`type` and the optional `value_type`, then build the requested parameter
variant.  A stored `None` under `value_type` behaves like an absent key, as
with `dict.get`. -/
def parameter_from_json (representation : TParameterRepresentation) :
    Except String Parameter :=
  match representation.lookup "name" with
  | none => .error "KeyError: name"
  | some (.scalar (.str name)) =>
    match representation.lookup "type" with
    | none => .error "KeyError: type"
    | some (.scalar (.str parameter_class)) =>
      if parameter_class ∈ PARAM_CLASSES then
        match representation.lookup "value_type" with
        | none =>
          dispatch_parameter_class parameter_class name representation none
        | some (.scalar .pynone) =>
          dispatch_parameter_class parameter_class name representation none
        | some (.scalar (.str t)) =>
          if (PARAM_TYPES.lookup t).isSome then
            dispatch_parameter_class parameter_class name representation (some t)
          else
            .error ("Value type in parameter JSON representation must be " ++
              "int, float, bool or str.")
        | some _ =>
          .error ("Value type in parameter JSON representation must be " ++
            "int, float, bool or str.")
      else
        .error "Type in parameter JSON representation must be range, choice, or fixed."
    | some _ => .error "Type in parameter JSON representation must be range, choice, or fixed."
  | some _ => .error "Parameter name must be a string."

example : parameter_from_json [("name", .scalar (.str "x1")),
    ("type", .scalar (.str "range")), ("bounds", .list [.int 0, .int 10])] =
    .ok (.range "x1" .INT (.int 0) (.int 10) (.scalar (.bool false))
      (.scalar (.bool false))) := by decide
example : parameter_from_json [("name", .scalar (.str "x1")),
    ("type", .scalar (.str "range")),
    ("bounds", .list [.int 0, .float 10])] =
    .error ("Values in bounds not of the same type and no value_type was " ++
      "explicitly specified; cannot infer value type for parameter x1") := by
  decide
example : parameter_from_json [("name", .scalar (.str "p")),
    ("type", .scalar (.str "choice")),
    ("values", .list [.int 1, .bool true])] =
    .ok (.choice "p" .INT [.int 1, .bool true] (.scalar (.bool false))) := by
  decide

theorem _to_parameter_type_infer_error (vals : List PyVal) (v0 : PyVal)
    (rest : List PyVal) (pn fn : String) (hv : vals = v0 :: rest)
    (hbad : ∃ x ∈ vals, isinstance x v0.type = false) :
    ∃ msg, _to_parameter_type vals none pn fn = .error msg := by
  subst hv
  by_cases h0 : v0 = .pynone
  · exact ⟨_, by simp only [_to_parameter_type, if_pos h0]; rfl⟩
  · cases hg : _get_parameter_type v0.type with
    | error e =>
      exact ⟨e, by simp only [_to_parameter_type, if_neg h0, hg]⟩
    | ok pt =>
      have hall : ((v0 :: rest).all fun x => isinstance x v0.type) = false := by
        rw [List.all_eq_false]
        obtain ⟨x, hx, hfx⟩ := hbad
        exact ⟨x, hx, by simp [hfx]⟩
      exact ⟨_, by simp only [_to_parameter_type, if_neg h0, hg, hall,
        Bool.false_eq_true, if_false]; rfl⟩

/-- C2 counterexample: a choice parameter whose values list holds an `int`
and a `bool` - two distinct exact runtime types - with `value_type` omitted
builds successfully, because the code checks `isinstance` against the first
value's type and Python's `bool` is a subclass of `int`.  This contradicts
the claim that every mixed-exact-type value list must fail. -/
theorem C2_counterexample :
    (PyVal.int 1).type ≠ (PyVal.bool true).type ∧
    parameter_from_json [("name", .scalar (.str "p")),
      ("type", .scalar (.str "choice")),
      ("values", .list [.int 1, .bool true])] =
      .ok (.choice "p" .INT [.int 1, .bool true] (.scalar (.bool false))) := by
  constructor <;> decide

/-- C2 amended: with `value_type` omitted, type inference requires every
value in the variant's value list (`values` for choice, `bounds` for range)
to be an `isinstance` of the first value's runtime type; any value that is
not an instance of that type makes `build_parameter` fail with
`ValidationError`.  No numeric coercion across `int`/`float` is accepted
(neither is an instance of the other), but Python's subtype relation is
honoured: a `bool` value after an `int` first value passes. -/
theorem C2_type_inference_uses_isinstance :
    (∀ (representation : List (String × ReprVal)) (nm : String)
       (vals : List PyVal) (v0 : PyVal) (rest : List PyVal),
       representation.lookup "name" = some (.scalar (.str nm)) →
       representation.lookup "type" = some (.scalar (.str "choice")) →
       representation.lookup "value_type" = none →
       representation.lookup "values" = some (.list vals) →
       vals = v0 :: rest → 1 < vals.length →
       (∃ x ∈ vals, isinstance x v0.type = false) →
       ∃ msg, parameter_from_json representation = .error msg) ∧
    (∀ (representation : List (String × ReprVal)) (nm : String)
       (vals : List PyVal) (v0 : PyVal) (rest : List PyVal),
       representation.lookup "name" = some (.scalar (.str nm)) →
       representation.lookup "type" = some (.scalar (.str "range")) →
       representation.lookup "value_type" = none →
       representation.lookup "bounds" = some (.list vals) →
       vals = v0 :: rest → vals.length = 2 →
       (∃ x ∈ vals, isinstance x v0.type = false) →
       ∃ msg, parameter_from_json representation = .error msg) ∧
    (isinstance (.int 1) .float = false ∧
     isinstance (.float 1) .int = false ∧
     isinstance (.bool true) .int = true) := by
  refine ⟨?_, ?_, by decide, by decide, by decide⟩
  · intro representation nm vals v0 rest hname htype hvt hvals hv hlen hbad
    obtain ⟨msg, hm⟩ :=
      _to_parameter_type_infer_error vals v0 rest nm "values" hv hbad
    refine ⟨msg, ?_⟩
    simp [parameter_from_json, hname, htype, hvt, PARAM_CLASSES,
      dispatch_parameter_class, _make_choice_param, hvals, hlen, hm]
  · intro representation nm vals v0 rest hname htype hvt hvals hv hlen hbad
    obtain ⟨msg, hm⟩ :=
      _to_parameter_type_infer_error vals v0 rest nm "bounds" hv hbad
    refine ⟨msg, ?_⟩
    simp [parameter_from_json, hname, htype, hvt, PARAM_CLASSES,
      dispatch_parameter_class, _make_range_param, hvals, hlen, hm]

theorem C2_type_inference_uses_isinstance_witness :
    (∃ msg, parameter_from_json [("name", .scalar (.str "p")),
      ("type", .scalar (.str "choice")),
      ("values", .list [.int 1, .float 2])] = .error msg) ∧
    (∃ msg, parameter_from_json [("name", .scalar (.str "x1")),
      ("type", .scalar (.str "range")),
      ("bounds", .list [.int 0, .float 10])] = .error msg) :=
  ⟨C2_type_inference_uses_isinstance.1
      [("name", .scalar (.str "p")), ("type", .scalar (.str "choice")),
        ("values", .list [.int 1, .float 2])]
      "p" [.int 1, .float 2] (.int 1) [.float 2] (by decide) (by decide)
      (by decide) (by decide) (by decide) (by decide) (by decide),
   C2_type_inference_uses_isinstance.2.1
      [("name", .scalar (.str "x1")), ("type", .scalar (.str "range")),
        ("bounds", .list [.int 0, .float 10])]
      "x1" [.int 0, .float 10] (.int 0) [.float 10] (by decide) (by decide)
      (by decide) (by decide) (by decide) (by decide) (by decide)⟩

/-- `OutcomeConstraint` of `ax.core.outcome_constraint`, modelled as the
record of arguments the source passes: `Metric(name=tokens[0])`, the
comparison op, the float bound and the relative flag. -/
structure OutcomeConstraint where
  metric : String
  op : ComparisonOp
  bound : ℚ
  relative : Bool
deriving DecidableEq, Repr

/-- Body of `outcome_constraint_from_str` after tokenization: exactly three
tokens with a known comparison operator in the middle; a trailing `%` on the
bound token (Python's `bound_repr[-1] == "%"`, modelled on the character
list) sets `relative` and is stripped (`bound_repr[:-1]`) before float
parsing. -/
def outcome_constraint_from_tokens (tokens : List String) :
    Except String OutcomeConstraint :=
  if (tokens.length == 3 &&
      (COMPARISON_OPS.lookup (tokens.getD 1 "")).isSome) = true then
    match COMPARISON_OPS.lookup (tokens.getD 1 "") with
    | none => .error "unreachable: the guard ensures the operator is known"
    | some op =>
      if (tokens.getD 2 "").data.getLast? = some '%' then
        match parseFloat (String.mk (tokens.getD 2 "").data.dropLast) with
        | some bound => .ok ⟨tokens.getD 0 "", op, bound, true⟩
        | none => .error "Outcome constraint bound should be a float."
      else
        match parseFloat (tokens.getD 2 "") with
        | some bound => .ok ⟨tokens.getD 0 "", op, bound, false⟩
        | none => .error "Outcome constraint bound should be a float."
  else
    .error ("Outcome constraint should be of form metric_name >= x, where " ++
      "x is a float bound and comparison operator is >= or <=.")

/-- `outcome_constraint_from_str`: tokenize on whitespace and parse. -/
def outcome_constraint_from_str (representation : String) :
    Except String OutcomeConstraint :=
  outcome_constraint_from_tokens (pySplit representation)

example : outcome_constraint_from_str "auc >= 80%" =
    .ok ⟨"auc", .GEQ, 80, true⟩ := by decide
example : outcome_constraint_from_str "auc <= 0.1" =
    .ok ⟨"auc", .LEQ, mkRat 1 10, false⟩ := by decide
example : outcome_constraint_from_str "auc >= x%" =
    .error "Outcome constraint bound should be a float." := by decide

/-- C6: for every outcome constraint string of exactly three tokens with a
known comparison operator in the middle, the result is relative exactly when
the bound token ends with `%`: with a trailing `%` the stripped remainder is
float-parsed and `relative = true` on success, without it the token itself is
float-parsed and `relative = false`; a non-numeric remainder fails with
`ValidationError` in both cases; and `auc >= 80%` yields metric `auc`, op
`GEQ`, bound 80.0, relative `true`. -/
theorem C6_outcome_relative_iff_percent (r m opTok bstr : String)
    (op : ComparisonOp) (htok : pySplit r = [m, opTok, bstr])
    (hop : COMPARISON_OPS.lookup opTok = some op) :
    ((bstr.data.getLast? = some '%' →
        (∀ b, parseFloat (String.mk bstr.data.dropLast) = some b →
          outcome_constraint_from_str r = .ok ⟨m, op, b, true⟩) ∧
        (parseFloat (String.mk bstr.data.dropLast) = none →
          outcome_constraint_from_str r =
            .error "Outcome constraint bound should be a float.")) ∧
     (¬bstr.data.getLast? = some '%' →
        (∀ b, parseFloat bstr = some b →
          outcome_constraint_from_str r = .ok ⟨m, op, b, false⟩) ∧
        (parseFloat bstr = none →
          outcome_constraint_from_str r =
            .error "Outcome constraint bound should be a float."))) ∧
    outcome_constraint_from_str "auc >= 80%" =
      .ok ⟨"auc", .GEQ, 80, true⟩ := by
  refine ⟨⟨?_, ?_⟩, by decide⟩
  · intro hpct
    constructor
    · intro b hb
      unfold outcome_constraint_from_str
      rw [htok]
      simp [outcome_constraint_from_tokens, hop, hpct, hb]
    · intro hb
      unfold outcome_constraint_from_str
      rw [htok]
      simp [outcome_constraint_from_tokens, hop, hpct, hb]
  · intro hpct
    constructor
    · intro b hb
      unfold outcome_constraint_from_str
      rw [htok]
      simp [outcome_constraint_from_tokens, hop, hpct, hb]
    · intro hb
      unfold outcome_constraint_from_str
      rw [htok]
      simp [outcome_constraint_from_tokens, hop, hpct, hb]

theorem C6_outcome_relative_iff_percent_witness :
    outcome_constraint_from_str "loss <= 15" = .ok ⟨"loss", .LEQ, 15, false⟩ :=
  ((C6_outcome_relative_iff_percent "loss <= 15" "loss" "<=" "15"
      ComparisonOp.LEQ (by decide) (by decide)).1.2 (by decide)).1 15
    (by decide)

/-- `Arm` of `ax.core.arm`, modelled as the parameterization it is built
from. -/
structure Arm where
  parameters : List (String × PyVal)
deriving DecidableEq, Repr

/-- Modelled from the spec: `DEFAULT_OBJECTIVE_NAME` of
`ax.core.simple_experiment` (not under `src/`), the "default name if
omitted" for the objective metric. -/
def DEFAULT_OBJECTIVE_NAME : String := "objective"

/-- `Experiment` (with its nested `SearchSpace`, `OptimizationConfig`,
`Objective` and `Metric` collaborators of `ax.core`), modelled as the record
of arguments `make_experiment` passes to the constructors. -/
structure Experiment where
  name : Option String
  search_space_parameters : List Parameter
  parameter_constraints : Option (List ParameterConstraint)
  objective_metric : String
  minimize : Bool
  outcome_constraints : List OutcomeConstraint
  status_quo : Option Arm
  experiment_type : Option String
deriving DecidableEq, Repr

/-- `make_experiment`: build the parameters, the optional status-quo arm and
the outcome constraints, reject relative outcome constraints without a
status quo, then parse parameter constraints against the name-keyed
parameter map (whose key list, `parameter_map`, feeds
`constraint_from_str`) and assemble the experiment. -/
def make_experiment (parameters : List TParameterRepresentation)
    (name : Option String) (objective_name : Option String) (minimize : Bool)
    (parameter_constraints : Option (List String))
    (outcome_constraints : Option (List String))
    (status_quo : Option (List (String × PyVal)))
    (experiment_type : Option String) : Except String Experiment :=
  match parameters.mapM parameter_from_json with
  | .error e => .error e
  | .ok exp_parameters =>
    match (outcome_constraints.getD []).mapM outcome_constraint_from_str with
    | .error e => .error e
    | .ok ocs =>
      if status_quo.map Arm.mk = none ∧ ocs.any (fun oc => oc.relative) then
        .error "Must set status_quo to have relative outcome constraints."
      else
        match parameter_constraints with
        | none =>
          .ok ⟨name, exp_parameters, none,
            objective_name.getD DEFAULT_OBJECTIVE_NAME, minimize, ocs,
            status_quo.map Arm.mk, experiment_type⟩
        | some cs =>
          match cs.mapM (fun c => constraint_from_str c
              ((exp_parameters.map Parameter.name).eraseDups)) with
          | .error e => .error e
          | .ok pcs =>
            .ok ⟨name, exp_parameters, some pcs,
              objective_name.getD DEFAULT_OBJECTIVE_NAME, minimize, ocs,
              status_quo.map Arm.mk, experiment_type⟩

/-- C7: whenever some parsed outcome constraint is relative and `status_quo`
is not provided, `make_experiment` fails with `ValidationError` and no
experiment is constructed - in particular before parameter constraints are
even parsed. -/
theorem C7_relative_outcome_needs_status_quo
    (parameters : List TParameterRepresentation)
    (name objective_name : Option String) (minimize : Bool)
    (parameter_constraints : Option (List String)) (ocstrs : List String)
    (experiment_type : Option String) (exp_parameters : List Parameter)
    (ocs : List OutcomeConstraint)
    (hps : parameters.mapM parameter_from_json = .ok exp_parameters)
    (hocs : ocstrs.mapM outcome_constraint_from_str = .ok ocs)
    (hrel : ∃ oc ∈ ocs, oc.relative = true) :
    make_experiment parameters name objective_name minimize
      parameter_constraints (some ocstrs) none experiment_type =
      .error "Must set status_quo to have relative outcome constraints." := by
  have hany : (ocs.any fun oc => oc.relative) = true := by
    rw [List.any_eq_true]
    exact hrel
  simp only [make_experiment, hps, Option.getD_some, hocs, Option.map_none']
  rw [if_pos ⟨trivial, hany⟩]

theorem C7_relative_outcome_needs_status_quo_witness :
    make_experiment [] none none false none (some ["auc >= 80%"]) none none =
      .error "Must set status_quo to have relative outcome constraints." :=
  C7_relative_outcome_needs_status_quo [] none none false none
    ["auc >= 80%"] none [] [⟨"auc", .GEQ, 80, true⟩] (by decide) (by decide)
    ⟨⟨"auc", .GEQ, 80, true⟩, by decide, by decide⟩

/-- A value stored in a trial-evaluation dict: the (mean, sem) tuple of
`TTrialEvaluation`, a plain number, or a nested dict (which
`raw_data_to_evaluation` rejects).  The nested dict's payload is modelled
shallowly as scalar-valued entries, since the source only ever tests it
with `isinstance(x, dict)` and never looks inside. -/
inductive DictVal where
  | tup (mean : ℚ) (sem : Option ℚ)
  | num (q : ℚ)
  | sub (entries : List (String × PyVal))
deriving DecidableEq, Repr

/-- Python `isinstance(x, dict)` on a dict value. -/
def DictVal.isDict : DictVal → Bool
  | .tup _ _ => false
  | .num _ => false
  | .sub _ => true

/-- One item of a `TFidelityTrialEvaluation` list: a (fidelity
parameterization, per-metric evaluation) pair.  `raw_data_to_evaluation`
and `data_from_evaluations` never look inside these items. -/
structure FidelityItem where
  fidelities : List (String × PyVal)
  evaluation : List (String × DictVal)
deriving DecidableEq, Repr

/-- `TEvaluationOutcome`: the union of raw evaluation shapes the normalizer
accepts - a per-metric dict, a fidelity list, a (mean, sem) 2-tuple, a plain
`float`/`int`, a numpy scalar (`np.float32/float64/int32/int64`, carrying
the underlying number), or any other runtime value (`other`), which the
normalizer rejects. -/
inductive TEvaluationOutcome where
  | dict (entries : List (String × DictVal))
  | list (items : List FidelityItem)
  | tuple (mean : ℚ) (sem : Option ℚ)
  | float (q : ℚ)
  | int (n : ℤ)
  | npfloat32 (q : ℚ)
  | npfloat64 (q : ℚ)
  | npint32 (n : ℤ)
  | npint64 (n : ℤ)
  | other (description : String)
deriving DecidableEq, Repr

/-- `raw_data_to_evaluation` (the spec's `normalize_evaluation`): dispatch on
the runtime shape of `raw_data`.  The external `numpy_type_to_python_type`
(not under `src/`) converts a numpy scalar to the underlying plain number,
modelled by carrying the numeric payload through.  `start_time` and
`end_time` are accepted and unused, as in the source. -/
def raw_data_to_evaluation (raw_data : TEvaluationOutcome)
    (objective_name : String) (start_time end_time : Option ℤ) :
    Except String TEvaluationOutcome :=
  match raw_data with
  | .dict entries =>
    if entries.any (fun kv => kv.2.isDict) then
      .error "Raw data is expected to be just for one arm."
    else .ok (.dict entries)
  | .list items => .ok (.list items)
  | .tuple mean sem => .ok (.dict [(objective_name, .tup mean sem)])
  | .float q => .ok (.dict [(objective_name, .tup q none)])
  | .int n => .ok (.dict [(objective_name, .tup (n : ℚ) none)])
  | .npfloat32 q => .ok (.dict [(objective_name, .tup q none)])
  | .npfloat64 q => .ok (.dict [(objective_name, .tup q none)])
  | .npint32 n => .ok (.dict [(objective_name, .tup (n : ℚ) none)])
  | .npint64 n => .ok (.dict [(objective_name, .tup (n : ℚ) none)])
  | .other _ =>
    .error ("Raw data has an invalid type. The data must either be in the " ++
      "form of a dictionary of metric names to mean, sem tuples, or a " ++
      "single mean, sem tuple, or a single mean.")

/-- C8: `normalize_evaluation` dispatches exactly by the shape of its raw
input - a mapping is returned unchanged unless some value is itself a
mapping (then `ValidationError`); a list is returned unchanged; a 2-tuple
becomes a single-entry mapping under the objective name; a plain number,
including the numpy scalar subtypes, becomes the objective-name mapping to
(value, None); every other shape fails with `ValidationError` - with the
spec's two concrete examples as final conjuncts. -/
theorem C8_normalize_evaluation_dispatch :
    (∀ (entries : List (String × DictVal)) (nm : String) (st et : Option ℤ),
      ((entries.any fun kv => kv.2.isDict) = false →
        raw_data_to_evaluation (.dict entries) nm st et = .ok (.dict entries)) ∧
      ((entries.any fun kv => kv.2.isDict) = true →
        ∃ msg, raw_data_to_evaluation (.dict entries) nm st et = .error msg)) ∧
    (∀ (items : List FidelityItem) (nm : String) (st et : Option ℤ),
      raw_data_to_evaluation (.list items) nm st et = .ok (.list items)) ∧
    (∀ (m : ℚ) (s : Option ℚ) (nm : String) (st et : Option ℤ),
      raw_data_to_evaluation (.tuple m s) nm st et =
        .ok (.dict [(nm, .tup m s)])) ∧
    (∀ (q : ℚ) (nm : String) (st et : Option ℤ),
      raw_data_to_evaluation (.float q) nm st et =
        .ok (.dict [(nm, .tup q none)]) ∧
      raw_data_to_evaluation (.npfloat32 q) nm st et =
        .ok (.dict [(nm, .tup q none)]) ∧
      raw_data_to_evaluation (.npfloat64 q) nm st et =
        .ok (.dict [(nm, .tup q none)])) ∧
    (∀ (n : ℤ) (nm : String) (st et : Option ℤ),
      raw_data_to_evaluation (.int n) nm st et =
        .ok (.dict [(nm, .tup (n : ℚ) none)]) ∧
      raw_data_to_evaluation (.npint32 n) nm st et =
        .ok (.dict [(nm, .tup (n : ℚ) none)]) ∧
      raw_data_to_evaluation (.npint64 n) nm st et =
        .ok (.dict [(nm, .tup (n : ℚ) none)])) ∧
    (∀ (s nm : String) (st et : Option ℤ),
      ∃ msg, raw_data_to_evaluation (.other s) nm st et = .error msg) ∧
    raw_data_to_evaluation (.float (mkRat 42 100)) "loss" none none =
      .ok (.dict [("loss", .tup (mkRat 42 100) none)]) ∧
    (∃ msg, raw_data_to_evaluation
      (.dict [("a", .num 1), ("b", .sub [("c", .int 2)])])
      "x" none none = .error msg) := by
  refine ⟨?_, ?_, ?_, ?_, ?_, ?_, by decide,
    ⟨"Raw data is expected to be just for one arm.", by decide⟩⟩
  · intro entries nm st et
    constructor
    · intro hnone
      simp [raw_data_to_evaluation, hnone]
    · intro hsome
      exact ⟨_, by simp [raw_data_to_evaluation, hsome]; rfl⟩
  · intro items nm st et
    rfl
  · intro m s nm st et
    rfl
  · intro q nm st et
    exact ⟨rfl, rfl, rfl⟩
  · intro n nm st et
    exact ⟨rfl, rfl, rfl⟩
  · intro s nm st et
    exact ⟨_, rfl⟩

theorem C8_normalize_evaluation_dispatch_witness :
    raw_data_to_evaluation
      (.dict [("m", .tup 1 (some (mkRat 1 10)))]) "obj" none none =
      .ok (.dict [("m", .tup 1 (some (mkRat 1 10)))]) :=
  (C8_normalize_evaluation_dispatch.1
    [("m", .tup 1 (some (mkRat 1 10)))] "obj" none none).1 (by decide)

/-- `Data` of `ax.core.data`: the external results-table constructors
`Data.from_evaluations` and `Data.from_fidelity_evaluations`, modelled as
records of the arguments `data_from_evaluations` passes through. -/
inductive Data where
  | from_evaluations (evaluations : List (String × TEvaluationOutcome))
      (trial_index : ℕ) (sample_sizes : List (String × ℕ))
      (start_time end_time : Option ℤ)
  | from_fidelity_evaluations
      (evaluations : List (String × TEvaluationOutcome))
      (trial_index : ℕ) (sample_sizes : List (String × ℕ))
      (start_time end_time : Option ℤ)
deriving DecidableEq, Repr

/-- Python `isinstance(x, dict)` on an evaluation outcome. -/
def TEvaluationOutcome.isDictShaped : TEvaluationOutcome → Bool
  | .dict _ => true
  | _ => false

/-- Python `isinstance(x, list)` on an evaluation outcome. -/
def TEvaluationOutcome.isListShaped : TEvaluationOutcome → Bool
  | .list _ => true
  | _ => false

/-- `data_from_evaluations` (the spec's `build_data_table`): dispatch to the
no-fidelity constructor when every evaluation is a dict, to the
with-fidelity constructor when every evaluation is a list, and fail
otherwise, passing trial_index, sample_sizes and the time bounds through
unchanged.  The evaluations dict is modelled as an association list with
unique keys, so iterating `evaluations.keys()` and indexing is iterating
the entries. -/
def data_from_evaluations
    (evaluations : List (String × TEvaluationOutcome)) (trial_index : ℕ)
    (sample_sizes : List (String × ℕ)) (start_time end_time : Option ℤ) :
    Except String Data :=
  if evaluations.all (fun kv => kv.2.isDictShaped) then
    .ok (.from_evaluations evaluations trial_index sample_sizes start_time
      end_time)
  else if evaluations.all (fun kv => kv.2.isListShaped) then
    .ok (.from_fidelity_evaluations evaluations trial_index sample_sizes
      start_time end_time)
  else
    .error ("Evaluations included a mixture of no-fidelity and " ++
      "with-fidelity evaluations, which is not currently supported.")

/-- C9: when every evaluation is a plain per-metric mapping the table is
built by the no-fidelity constructor, and when some evaluation is not a
mapping but all are lists it is built by the with-fidelity constructor, in
both cases passing trial_index, sample_sizes, start_time and end_time
through unchanged; a mixture containing both a mapping-shaped and a
list-shaped evaluation fails with `ValidationError`. -/
theorem C9_build_data_table_homogeneity
    (evaluations : List (String × TEvaluationOutcome)) (trial_index : ℕ)
    (sample_sizes : List (String × ℕ)) (start_time end_time : Option ℤ) :
    ((∀ kv ∈ evaluations, kv.2.isDictShaped = true) →
      data_from_evaluations evaluations trial_index sample_sizes start_time
        end_time = .ok (.from_evaluations evaluations trial_index
        sample_sizes start_time end_time)) ∧
    ((∃ kv ∈ evaluations, kv.2.isDictShaped = false) →
      (∀ kv ∈ evaluations, kv.2.isListShaped = true) →
      data_from_evaluations evaluations trial_index sample_sizes start_time
        end_time = .ok (.from_fidelity_evaluations evaluations trial_index
        sample_sizes start_time end_time)) ∧
    ((∃ kv ∈ evaluations, kv.2.isDictShaped = true) →
      (∃ kv ∈ evaluations, kv.2.isListShaped = true) →
      ∃ msg, data_from_evaluations evaluations trial_index sample_sizes
        start_time end_time = .error msg) := by
  refine ⟨?_, ?_, ?_⟩
  · intro hall
    have h : evaluations.all (fun kv => kv.2.isDictShaped) = true := by
      rw [List.all_eq_true]
      exact hall
    simp [data_from_evaluations, h]
  · intro hnot hall
    have h1 : evaluations.all (fun kv => kv.2.isDictShaped) = false := by
      rw [List.all_eq_false]
      obtain ⟨kv, hm, hf⟩ := hnot
      exact ⟨kv, hm, by simp [hf]⟩
    have h2 : evaluations.all (fun kv => kv.2.isListShaped) = true := by
      rw [List.all_eq_true]
      exact hall
    simp [data_from_evaluations, h1, h2]
  · intro hdict hlist
    have h1 : evaluations.all (fun kv => kv.2.isDictShaped) = false := by
      rw [List.all_eq_false]
      obtain ⟨kv, hm, hf⟩ := hlist
      refine ⟨kv, hm, ?_⟩
      cases hkv : kv.2 <;> simp_all [TEvaluationOutcome.isDictShaped,
        TEvaluationOutcome.isListShaped]
    have h2 : evaluations.all (fun kv => kv.2.isListShaped) = false := by
      rw [List.all_eq_false]
      obtain ⟨kv, hm, hf⟩ := hdict
      refine ⟨kv, hm, ?_⟩
      cases hkv : kv.2 <;> simp_all [TEvaluationOutcome.isDictShaped,
        TEvaluationOutcome.isListShaped]
    exact ⟨_, by simp [data_from_evaluations, h1, h2]; rfl⟩

theorem C9_build_data_table_homogeneity_witness :
    ∃ msg, data_from_evaluations
      [("arm1", .dict [("m", .tup 1 (some (mkRat 1 10)))]),
       ("arm2", .list [⟨[("fid", .int 1)], [("m", .tup 2 (some (mkRat 1 10)))]⟩])]
      0 [] none none = .error msg :=
  (C9_build_data_table_homogeneity
    [("arm1", .dict [("m", .tup 1 (some (mkRat 1 10)))]),
     ("arm2", .list [⟨[("fid", .int 1)], [("m", .tup 2 (some (mkRat 1 10)))]⟩])]
    0 [] none none).2.2
    ⟨("arm1", .dict [("m", .tup 1 (some (mkRat 1 10)))]), by decide, by decide⟩
    ⟨("arm2", .list [⟨[("fid", .int 1)], [("m", .tup 2 (some (mkRat 1 10)))]⟩]),
      by decide, by decide⟩
